import Mathlib

/-!
Formalisation of the statistics-SVG updater (`today.py`).

The script fetches account statistics and patches two SVG templates.  Its
algorithmic heart is the padding ("dots") computation inside
`svg_overwrite`, the dot-string renderer `make_dots`, the element patcher
`find_and_replace`, the alternative justifier `justify_format`, and the
status gate `simple_request`.  Each of these is embedded below as an
executable Lean function translated from the Python source; the theorems
at the end of the file settle the specified properties of these functions.
-/

namespace Today

/-- Source line 141: `repo_dots = 4`.  The first line's leading pad length,
fixed at the configured minimum.  It does not depend on any value width. -/
def repoDots : Int := 4

/-- Source line 145:
`commit_dots = 24 + len(repo_str) + len(contrib_str) + repo_dots - 10 - len(commit_str)`,
the unclamped second-line pad, as a function of the three rendered value
widths. -/
def commitDotsRaw (repoW contribW commitW : Nat) : Int :=
  24 + (repoW : Int) + (contribW : Int) + repoDots - 10 - (commitW : Int)

/-- Source line 146: `commit_dots = max(4, commit_dots)` — the second-line
pad clamped to the floor 4. -/
def commitDotsW (repoW contribW commitW : Nat) : Int :=
  max 4 (commitDotsRaw repoW contribW commitW)

/-- Source line 149: `follower_dots = 8`. -/
def followerDots : Int := 8

/-- Source line 150: `star_dots = follower_dots + 4`. -/
def starDots : Int := followerDots + 4

/-- Stated from the spec's words, as the refinement target for the
second-line pad: `first_line_total_left_width - second_line_fixed_width -
second_line_value_width` with
`first_line_total_left_width = line1_fixed_width (24) + the two first-line
value widths + the first-line pad (4)`, clamped to a floor of 4. -/
def specCommitPad (repoW contribW commitW : Nat) : Int :=
  max 4 ((24 + (repoW : Int) + (contribW : Int) + 4) - 10 - (commitW : Int))

/-- Source lines 153-161, the local helper `make_dots(n)` of
`svg_overwrite`: renders a pad of total length `n` (a Python int). -/
def makeDots (n : Int) : String :=
  if n ≤ 0 then " "
  else if n = 1 then " "
  else if n = 2 then ". "
  else " " ++ String.mk (List.replicate (n - 2).toNat '.') ++ " "

/-- Modelled from the spec: the two right-hand trailing labels of the stat
lines live in the SVG templates, which are not part of the Python source;
the layout comments of `svg_overwrite` (source lines 129-130 and 137)
record them as `Stars:` and `Followers:`, with `Followers:` four
characters longer than `Stars:`. -/
def starLabel : String := "Stars:"

/-- Modelled from the spec: the trailing label of the follower line; see
`starLabel`. -/
def followerLabel : String := "Followers:"

/-- Source lines 186-190 of `justify_format`: the dot string for a
justification length `just_len = max(0, length - len(new_text))`, which is
always non-negative, hence a `Nat` here.  `just_len <= 2` is looked up in
`{0: '', 1: ' ', 2: '. '}`; otherwise `' ' + '.' * just_len + ' '`. -/
def justDotString (justLen : Nat) : String :=
  if justLen = 0 then ""
  else if justLen = 1 then " "
  else if justLen = 2 then ". "
  else " " ++ String.mk (List.replicate justLen '.') ++ " "

/-- Comma grouping on a reversed digit list: inserts `,` after every three
characters, working from the least significant digit. -/
def groupRev : List Char → List Char
  | c1 :: c2 :: c3 :: c4 :: rest => c1 :: c2 :: c3 :: ',' :: groupRev (c4 :: rest)
  | l => l

/-- Python's `f"{n:,}"` for a non-negative integer: decimal digits with a
thousands separator (source lines 123-127). -/
def commaFormat (n : Nat) : String :=
  String.mk (groupRev (Nat.repr n).data.reverse).reverse

/-- An element of the parsed SVG tree: an optional `id` attribute, an
optional text content, and a list of child elements.  Only these parts are
relevant to the patcher, which matches on `id` and rewrites text. -/
inductive Elem : Type where
  | mk (attrId : Option String) (textContent : Option String) (children : List Elem)

/-- The child list of an element. -/
def Elem.children : Elem → List Elem
  | .mk _ _ k => k

mutual

/-- Does this element's subtree (the element itself included) contain an
element whose `id` attribute equals `i`? -/
def hasIdT (i : String) : Elem → Bool
  | .mk a _ k => a = some i || hasIdL i k

/-- Does any tree in this forest contain an element with `id` `i`? -/
def hasIdL (i : String) : List Elem → Bool
  | [] => false
  | e :: rest => hasIdT i e || hasIdL i rest

end

mutual

/-- Replace, in document (preorder) order, the text of the first element of
this subtree whose `id` is `i` by `t`; `none` when there is no such
element.  This is the semantics of lxml's `root.find(".//*[@id=i]")`
followed by a text assignment, restricted to one subtree. -/
def replaceT (i t : String) : Elem → Option Elem
  | .mk a tx k =>
    if a = some i then some (.mk a (some t) k)
    else
      match replaceL i t k with
      | some k' => some (.mk a tx k')
      | none => none

/-- Replace the text of the first element of the forest (in document
order) whose `id` is `i`; `none` when there is no match. -/
def replaceL (i t : String) : List Elem → Option (List Elem)
  | [] => none
  | e :: rest =>
    match replaceT i t e with
    | some e' => some (e' :: rest)
    | none =>
      match replaceL i t rest with
      | some rest' => some (e :: rest')
      | none => none

end

/-- Totalised single-subtree replacement: the subtree is returned
unchanged when there is no match. -/
def frT (i t : String) (e : Elem) : Elem := (replaceT i t e).getD e

/-- Totalised forest replacement. -/
def frL (i t : String) (cs : List Elem) : List Elem := (replaceL i t cs).getD cs

/-- Source lines 194-200, `find_and_replace(root, element_id, new_text)`:
lxml's `root.find(".//*[@id=element_id]")` searches the *descendants* of
`root` (not `root` itself) in document order; when an element is found its
text is overwritten, otherwise nothing happens. -/
def findAndReplace (root : Elem) (i t : String) : Elem :=
  match root with
  | .mk a tx k =>
    match replaceL i t k with
    | some k' => .mk a tx k'
    | none => root

mutual

/-- Erase the text of every element of the subtree whose `id` is `i`
(structure, attributes and all other texts are kept).  Two trees with
equal `scrubT i` images differ at most in the texts of `i`-carriers. -/
def scrubT (i : String) : Elem → Elem
  | .mk a tx k => .mk a (if a = some i then none else tx) (scrubL i k)

/-- `scrubT` mapped over a forest. -/
def scrubL (i : String) : List Elem → List Elem
  | [] => []
  | e :: rest => scrubT i e :: scrubL i rest

end

mutual

/-- The texts of all elements of the subtree carrying `id` `i`, in
document order. -/
def textsOfIdT (i : String) : Elem → List (Option String)
  | .mk a tx k => (if a = some i then [tx] else []) ++ textsOfIdL i k

/-- The texts of all `i`-carriers of a forest, in document order. -/
def textsOfIdL (i : String) : List Elem → List (Option String)
  | [] => []
  | e :: rest => textsOfIdT i e ++ textsOfIdL i rest

end

/-- Sequential application of `findAndReplace` for a list of
(slot id, new text) pairs. -/
def applyAll (root : Elem) (ps : List (String × String)) : Elem :=
  ps.foldl (fun acc p => findAndReplace acc p.1 p.2) root

/-- The nine (slot id, text) substitutions performed by `svg_overwrite`
(source lines 164-172), in source order, for the given metric values. -/
def slotAssignments (commitData starData repoData contribData followerData : Nat) :
    List (String × String) :=
  let repoStr := commaFormat repoData
  let contribStr := commaFormat contribData
  let commitStr := commaFormat commitData
  [("repo_data", repoStr),
   ("repo_data_dots", makeDots repoDots),
   ("contrib_data", contribStr),
   ("star_data", commaFormat starData),
   ("star_data_dots", makeDots starDots),
   ("commit_data", commitStr),
   ("commit_data_dots", makeDots (commitDotsW repoStr.length contribStr.length commitStr.length)),
   ("follower_data", commaFormat followerData),
   ("follower_data_dots", makeDots followerDots)]

/-- Source lines 114-174, `svg_overwrite` as a tree transformer: the file
is parsed, the five metric strings are comma-formatted, the pad lengths
are computed, and the nine placeholder slots are patched in order.  (The
unused `age_data` parameter of the source is kept; writing the tree back
to disk is the identity on the tree.) -/
def svgOverwrite (root : Elem) (_ageData : String)
    (commitData starData repoData contribData followerData : Nat) : Elem :=
  applyAll root (slotAssignments commitData starData repoData contribData followerData)

/-- A Python value passed as `new_text` to `justify_format`: either an int
(then comma-formatted, source lines 181-182) or already a string. -/
inductive PyVal : Type where
  | int (n : Nat)
  | str (s : String)

/-- `str(new_text)` after the optional comma formatting. -/
def pyValStr : PyVal → String
  | .int n => commaFormat n
  | .str s => s

/-- Source lines 177-191, `justify_format(root, element_id, new_text,
length)`: stringify, patch the value slot, compute
`just_len = max(0, length - len(new_text))`, and patch the adjacent
`_dots` slot with `justDotString just_len`. -/
def justifyFormat (root : Elem) (eid : String) (v : PyVal) (length : Int) : Elem :=
  let newText := pyValStr v
  let root1 := findAndReplace root eid newText
  let justLen : Nat := (length - (newText.length : Int)).toNat
  findAndReplace root1 (eid ++ "_dots") (justDotString justLen)

/-- A transport response: HTTP status code and body (source `request`). -/
structure Response : Type where
  status : Nat
  text : String

/-- The exception raised by `simple_request` (source line 46): it carries
the identity of the calling function, the status code and the response
body.  (The source additionally attaches the global query-count tally, an
observational debug payload.) -/
structure RequestError : Type where
  funcName : String
  status : Nat
  body : String

/-- Source lines 39-46, `simple_request`: return the response when the
status is 200, otherwise raise. -/
def simpleRequest (funcName : String) (resp : Response) : Except RequestError Response :=
  if resp.status = 200 then .ok resp
  else .error ⟨funcName, resp.status, resp.text⟩

/-- The transport responses consumed by one run of the script, in call
order (source lines 272-285). -/
structure Transport : Type where
  userResp : Response
  commitsResp : Response
  starsResp : Response
  reposResp : Response
  contribResp : Response
  followerResp : Response

/-- The main flow of the script (source lines 266-288), with JSON payload
decoding abstracted by `parse` (the GraphQL bodies are an opaque external
interface): every fetch goes through `simpleRequest`, and only when all
six fetches succeed are the two documents patched. -/
def mainRun (tr : Transport) (parse : Response → Nat) (age : String)
    (doc1 doc2 : Elem) : Except RequestError (Elem × Elem) := do
  let _ ← simpleRequest "user_getter" tr.userResp
  let rc ← simpleRequest "graph_commits" tr.commitsResp
  let rs ← simpleRequest "graph_repos_stars" tr.starsResp
  let rr ← simpleRequest "graph_repos_stars" tr.reposResp
  let rb ← simpleRequest "graph_repos_stars" tr.contribResp
  let rf ← simpleRequest "follower_getter" tr.followerResp
  pure (svgOverwrite doc1 age (parse rc) (parse rs) (parse rr) (parse rb) (parse rf),
        svgOverwrite doc2 age (parse rc) (parse rs) (parse rr) (parse rb) (parse rf))

end Today

namespace Today

/-! ### Helper lemmas about string lengths and pad rendering -/

/-- The length of a `makeDots` pad in the large-`n` branch. -/
theorem makeDots_length_of_two_lt (n : Int) (h : 2 < n) :
    (makeDots n).length = n.toNat := by
  have h0 : ¬ n ≤ 0 := by omega
  have h1 : ¬ n = 1 := by omega
  have h2 : ¬ n = 2 := by omega
  simp only [makeDots, if_neg h0, if_neg h1, if_neg h2]
  rw [String.length_append, String.length_append]
  show " ".length + (List.replicate (n - 2).toNat '.').length + " ".length = n.toNat
  rw [List.length_replicate]
  show 1 + (n - 2).toNat + 1 = n.toNat
  omega

/-- The unconditional `makeDots` branch description. -/
theorem makeDots_of_two_lt (n : Int) (h : 2 < n) :
    makeDots n = " " ++ String.mk (List.replicate (n - 2).toNat '.') ++ " " := by
  have h0 : ¬ n ≤ 0 := by omega
  have h1 : ¬ n = 1 := by omega
  have h2 : ¬ n = 2 := by omega
  simp only [makeDots, if_neg h0, if_neg h1, if_neg h2]

/-- The `justDotString` description in the long branch. -/
theorem justDotString_of_two_lt (j : Nat) (h : 2 < j) :
    justDotString j = " " ++ String.mk (List.replicate j '.') ++ " " := by
  have h0 : ¬ j = 0 := by omega
  have h1 : ¬ j = 1 := by omega
  have h2 : ¬ j = 2 := by omega
  simp only [justDotString, if_neg h0, if_neg h1, if_neg h2]

/-- The length of a long `justDotString`. -/
theorem justDotString_length_of_two_lt (j : Nat) (h : 2 < j) :
    (justDotString j).length = j + 2 := by
  rw [justDotString_of_two_lt j h, String.length_append, String.length_append]
  show " ".length + (List.replicate j '.').length + " ".length = j + 2
  rw [List.length_replicate]
  show 1 + j + 1 = j + 2
  omega

/-! ### The claims -/

/-- C1: for all non-negative value widths, the second line's pad length
(`commit_dots`) equals
`first_line_total_left_width - second_line_fixed_width - second_line_value_width`
with `first_line_total_left_width = 24 + repo width + contrib width + 4`,
clamped to a floor of 4 (the spec-side formula is `specCommitPad`); in
particular the scenario (repo 3, contrib 2, commit 6) gives pad 17. -/
theorem C1_commit_pad_formula :
    (∀ repoW contribW commitW : Nat,
      commitDotsW repoW contribW commitW = specCommitPad repoW contribW commitW) ∧
    commitDotsW 3 2 6 = 17 := by
  refine ⟨fun r c m => ?_, by decide⟩
  simp only [commitDotsW, commitDotsRaw, specCommitPad, repoDots]

/-- C2: `makeDots` returns a single blank for lengths at most 0 and for
length 1, one dot then one blank for length 2, and blank, `n - 2` dots,
blank for lengths above 2; in particular `makeDots 0 = makeDots 1 = " "`,
`makeDots 2 = ". "` and `makeDots 5 = " ... "`. -/
theorem C2_make_dots_cases :
    (∀ n : Int,
      (n ≤ 0 ∨ n = 1 → makeDots n = " ") ∧
      (n = 2 → makeDots n = ". ") ∧
      (2 < n → makeDots n = " " ++ String.mk (List.replicate (n - 2).toNat '.') ++ " ")) ∧
    (makeDots 0 = " " ∧ makeDots 1 = " " ∧ makeDots 2 = ". " ∧ makeDots 5 = " ... ") := by
  refine ⟨fun n => ⟨?_, ?_, makeDots_of_two_lt n⟩, by decide⟩
  · rintro (h | h)
    · simp only [makeDots, if_pos h]
    · subst h; decide
  · rintro h; subst h; decide

/-- Witness for C2 at concrete lengths `-3` and `7`. -/
theorem C2_make_dots_cases_witness :
    makeDots (-3) = " " ∧
    makeDots 7 = " " ++ String.mk (List.replicate ((7 : Int) - 2).toNat '.') ++ " " :=
  ⟨(C2_make_dots_cases.1 (-3)).1 (Or.inl (by decide)),
   (C2_make_dots_cases.1 7).2.2 (by decide)⟩

/-- C3 counterexample: the claim as stated guards the alignment equation
by "both computed pad lengths strictly exceed their floors", but the first
line's pad is the constant `repo_dots = 4`, which never strictly exceeds
its floor 4 — the guard is unsatisfiable, so the claim is vacuous and
misses the actual invariant; moreover the equation genuinely fails when
the second pad sits at its floor, e.g. at widths (1, 1, 20). -/
theorem C3_alignment_counterexample :
    ¬ (4 < repoDots) ∧ commitDotsW 1 1 20 = 4 ∧
    (24 : Int) + (1 + 1) + repoDots ≠ 10 + 20 + commitDotsW 1 1 20 := by decide

/-- C3 (amended): the first line's pad always equals its floor 4, and
whenever the second line's computed pad strictly exceeds its floor 4, the
alignment equation
`24 + (repo width + contrib width) + pad1 = 10 + commit width + pad2`
holds exactly. -/
theorem C3_alignment_off_floor (repoW contribW commitW : Nat)
    (h : 4 < commitDotsW repoW contribW commitW) :
    repoDots = 4 ∧
    24 + ((repoW : Int) + (contribW : Int)) + repoDots
      = 10 + (commitW : Int) + commitDotsW repoW contribW commitW := by
  refine ⟨rfl, ?_⟩
  simp only [commitDotsW, commitDotsRaw, repoDots] at *
  omega

/-- Witness for C3 (amended) at widths (3, 2, 6), where the second pad is
17 and both sides of the alignment equation are 33. -/
theorem C3_alignment_off_floor_witness :
    repoDots = 4 ∧
    24 + (((3 : Nat) : Int) + ((2 : Nat) : Int)) + repoDots
      = 10 + ((6 : Nat) : Int) + commitDotsW 3 2 6 :=
  C3_alignment_off_floor 3 2 6 (by decide)

/-- C4 counterexample: the claim says the minimum pad 8 is assigned to the
line with the *shorter* trailing label and identifies that line as the
follower line; but the follower label `Followers:` is the *longer* of the
two (10 characters against 6 for `Stars:`), and the line with the shorter
label is the star line, whose pad is 12, not 8. -/
theorem C4_right_alignment_counterexample :
    starLabel.length < followerLabel.length ∧ followerDots = 8 ∧
    starDots ≠ 8 ∧ starDots = 12 := by
  refine ⟨by decide, by decide, by decide, by decide⟩

/-- C4 (amended): the right-side alignment assigns the minimum pad length
8 to the line with the *longer* trailing label (`Followers:`,
`follower_dots`) and adds the fixed width delta 4 to obtain the pad of the
line with the *shorter* trailing label (`Stars:`), so `follower_dots = 8`
yields `star_dots = 12`; this makes label width plus pad length agree on
the two lines. -/
theorem C4_right_alignment :
    followerDots = 8 ∧ starDots = followerDots + 4 ∧ starDots = 12 ∧
    followerLabel.length = starLabel.length + 4 ∧
    (starLabel.length : Int) + starDots = (followerLabel.length : Int) + followerDots := by
  refine ⟨by decide, by decide, by decide, by decide, by decide⟩

/-- C5 counterexample: growing the repo metric from width 3 to width 4
(contrib 2, commit 6 fixed) leaves its own line's pad at the constant 4
instead of decreasing it by 1, and changes the sibling line's pad from 17
to 18 instead of leaving it unchanged — the claimed behaviour fails for
the first-line metrics. -/
theorem C5_width_growth_counterexample :
    repoDots = 4 ∧ repoDots ≠ 3 ∧
    commitDotsW 3 2 6 = 17 ∧ commitDotsW 4 2 6 = 18 ∧
    commitDotsW 4 2 6 ≠ commitDotsW 3 2 6 := by
  refine ⟨by decide, by decide, by decide, by decide, by decide⟩

/-- C5 (amended): only the commit metric behaves as claimed — when its
pad is strictly above the floor, growing the commit width by one character
decreases `commit_dots` by exactly 1 while the first line's pad stays at
its constant 4; growing a first-line width (repo or contrib) by one
instead leaves that line's own pad unchanged at 4 and *increases*
`commit_dots` by exactly 1 whenever the unclamped value is at least the
floor. -/
theorem C5_width_growth (repoW contribW commitW : Nat) :
    (4 < commitDotsW repoW contribW commitW →
      commitDotsW repoW contribW (commitW + 1) = commitDotsW repoW contribW commitW - 1 ∧
      repoDots = 4) ∧
    (4 ≤ commitDotsRaw repoW contribW commitW →
      commitDotsW (repoW + 1) contribW commitW = commitDotsW repoW contribW commitW + 1 ∧
      commitDotsW repoW (contribW + 1) commitW = commitDotsW repoW contribW commitW + 1 ∧
      repoDots = 4) := by
  simp only [commitDotsW, commitDotsRaw, repoDots]
  refine ⟨fun h => ⟨?_, by trivial⟩, fun h => ⟨?_, ?_, by trivial⟩⟩ <;> push_cast <;> omega

/-- Witness for C5 (amended) at widths (3, 2, 6): the commit pad moves
17 → 16 under commit growth and 17 → 18 under repo growth. -/
theorem C5_width_growth_witness :
    (commitDotsW 3 2 (6 + 1) = commitDotsW 3 2 6 - 1 ∧ repoDots = 4) ∧
    (commitDotsW (3 + 1) 2 6 = commitDotsW 3 2 6 + 1 ∧
      commitDotsW 3 (2 + 1) 6 = commitDotsW 3 2 6 + 1 ∧ repoDots = 4) :=
  ⟨(C5_width_growth 3 2 6).1 (by decide), (C5_width_growth 3 2 6).2 (by decide)⟩

/-- C9: for `n ≥ 1` the rendered pad string has character length exactly
`n`, and for `n ≤ 0` it has length 1 — the postcondition that turns pad
lengths into column alignment. -/
theorem C9_make_dots_length (n : Int) :
    (1 ≤ n → (makeDots n).length = n.toNat) ∧ (n ≤ 0 → (makeDots n).length = 1) := by
  constructor
  · intro h
    rcases lt_or_le 2 n with h2 | h2
    · exact makeDots_length_of_two_lt n h2
    · interval_cases n <;> decide
  · intro h
    simp only [makeDots, if_pos h]
    decide

/-- Witness for C9 at lengths `5` and `-1`. -/
theorem C9_make_dots_length_witness :
    (makeDots 5).length = (5 : Int).toNat ∧ (makeDots (-1)).length = 1 :=
  ⟨(C9_make_dots_length 5).1 (by decide), (C9_make_dots_length (-1)).2 (by decide)⟩

/-- C10: when `just_len = max(0, length - len(text))` exceeds 2,
`justify_format` renders one blank, `just_len` dots and one blank — a
string of length `just_len + 2` — which is exactly two characters longer
than `makeDots` produces for the same nominal pad length. -/
theorem C10_justify_dots (length : Int) (text : String)
    (h : 2 < (length - (text.length : Int)).toNat) :
    justDotString (length - (text.length : Int)).toNat
      = " " ++ String.mk (List.replicate (length - (text.length : Int)).toNat '.') ++ " " ∧
    (justDotString (length - (text.length : Int)).toNat).length
      = (length - (text.length : Int)).toNat + 2 ∧
    (justDotString (length - (text.length : Int)).toNat).length
      = (makeDots ((length - (text.length : Int)).toNat : Int)).length + 2 := by
  refine ⟨justDotString_of_two_lt _ h, justDotString_length_of_two_lt _ h, ?_⟩
  rw [justDotString_length_of_two_lt _ h, makeDots_length_of_two_lt _ (by exact_mod_cast h)]
  omega

/-- Witness for C10 at `length = 10` and the three-character text `abc`,
where `just_len = 7`. -/
theorem C10_justify_dots_witness :
    justDotString ((10 : Int) - (("abc" : String).length : Int)).toNat
      = " " ++ String.mk (List.replicate ((10 : Int) - (("abc" : String).length : Int)).toNat '.') ++ " " ∧
    (justDotString ((10 : Int) - (("abc" : String).length : Int)).toNat).length
      = ((10 : Int) - (("abc" : String).length : Int)).toNat + 2 ∧
    (justDotString ((10 : Int) - (("abc" : String).length : Int)).toNat).length
      = (makeDots ((((10 : Int) - (("abc" : String).length : Int)).toNat : Nat) : Int)).length + 2 :=
  C10_justify_dots 10 "abc" (by decide)

end Today

namespace Today

/-! ### Helper lemmas about the element patcher -/

mutual

/-- A subtree replacement succeeds exactly when the subtree contains the
id. -/
theorem replaceT_isSome (i t : String) (e : Elem) :
    (replaceT i t e).isSome = hasIdT i e := by
  match e with
  | .mk a tx k =>
    by_cases h : a = some i
    · simp [replaceT, hasIdT, h]
    · simp only [replaceT, hasIdT, if_neg h]
      rw [← replaceL_isSome i t k]
      cases hk : replaceL i t k <;> simp [h, hk]

/-- A forest replacement succeeds exactly when the forest contains the
id. -/
theorem replaceL_isSome (i t : String) (cs : List Elem) :
    (replaceL i t cs).isSome = hasIdL i cs := by
  match cs with
  | [] => rfl
  | e :: rest =>
    simp only [replaceL, hasIdL]
    rw [← replaceT_isSome i t e, ← replaceL_isSome i t rest]
    cases he : replaceT i t e <;> cases hr : replaceL i t rest <;> simp [he, hr]

end

/-- A forest without the id is left alone by `replaceL`. -/
theorem replaceL_eq_none (i t : String) (cs : List Elem) (h : hasIdL i cs = false) :
    replaceL i t cs = none := by
  have hs := replaceL_isSome i t cs
  rw [h] at hs
  cases hk : replaceL i t cs with
  | none => rfl
  | some cs' => rw [hk] at hs; simp at hs

/-- `frT` on an element that itself carries the id. -/
theorem frT_of_eq (i t : String) (a tx : Option String) (k : List Elem)
    (h : a = some i) : frT i t (.mk a tx k) = .mk a (some t) k := by
  simp [frT, replaceT, h]

/-- `frT` on an element that does not itself carry the id descends into
the children. -/
theorem frT_of_ne (i t : String) (a tx : Option String) (k : List Elem)
    (h : ¬ a = some i) : frT i t (.mk a tx k) = .mk a tx (frL i t k) := by
  simp only [frT, replaceT, if_neg h, frL]
  cases hk : replaceL i t k <;> simp

/-- `frL` replaces inside the head when the head's subtree has the id. -/
theorem frL_cons_pos (i t : String) (e : Elem) (rest : List Elem)
    (h : hasIdT i e = true) : frL i t (e :: rest) = frT i t e :: rest := by
  have hs := replaceT_isSome i t e
  rw [h] at hs
  cases he : replaceT i t e with
  | none => rw [he] at hs; simp at hs
  | some e' => simp [frL, replaceL, he, frT]

/-- `frL` skips the head when the head's subtree lacks the id. -/
theorem frL_cons_neg (i t : String) (e : Elem) (rest : List Elem)
    (h : hasIdT i e = false) : frL i t (e :: rest) = e :: frL i t rest := by
  cases he : replaceT i t e with
  | some e' =>
    have hs := replaceT_isSome i t e
    rw [he, h] at hs
    simp at hs
  | none =>
    simp only [frL, replaceL, he]
    cases hr : replaceL i t rest <;> simp [hr]

mutual

/-- Replacement never changes which ids a subtree contains. -/
theorem hasIdT_frT (i t j : String) (e : Elem) : hasIdT j (frT i t e) = hasIdT j e := by
  match e with
  | .mk a tx k =>
    by_cases h : a = some i
    · rw [frT_of_eq i t a tx k h]; rfl
    · rw [frT_of_ne i t a tx k h]
      simp only [hasIdT]
      rw [hasIdL_frL i t j k]

/-- Replacement never changes which ids a forest contains. -/
theorem hasIdL_frL (i t j : String) (cs : List Elem) : hasIdL j (frL i t cs) = hasIdL j cs := by
  match cs with
  | [] => rfl
  | e :: rest =>
    by_cases h : hasIdT i e
    · rw [frL_cons_pos i t e rest h]
      simp only [hasIdL]
      rw [hasIdT_frT i t j e]
    · rw [frL_cons_neg i t e rest (by simpa using h)]
      simp only [hasIdL]
      rw [hasIdL_frL i t j rest]

end

mutual

/-- Replacing twice with the same id overwrites: only the second text
survives. -/
theorem frT_overwrite (i t t' : String) (e : Elem) :
    frT i t (frT i t' e) = frT i t e := by
  match e with
  | .mk a tx k =>
    by_cases h : a = some i
    · rw [frT_of_eq i t' a tx k h, frT_of_eq i t a (some t') k h, frT_of_eq i t a tx k h]
    · rw [frT_of_ne i t' a tx k h, frT_of_ne i t a tx (frL i t' k) h, frT_of_ne i t a tx k h,
        frL_overwrite i t t' k]

/-- Forest version of `frT_overwrite`. -/
theorem frL_overwrite (i t t' : String) (cs : List Elem) :
    frL i t (frL i t' cs) = frL i t cs := by
  match cs with
  | [] => rfl
  | e :: rest =>
    by_cases h : hasIdT i e
    · rw [frL_cons_pos i t' e rest h, frL_cons_pos i t (frT i t' e) rest (by rw [hasIdT_frT, h]),
        frL_cons_pos i t e rest h, frT_overwrite i t t' e]
    · have h' : hasIdT i e = false := by simpa using h
      rw [frL_cons_neg i t' e rest h', frL_cons_neg i t e (frL i t' rest) h',
        frL_cons_neg i t e rest h', frL_overwrite i t t' rest]

end

mutual

/-- Replacements at two different ids commute on a subtree. -/
theorem frT_comm (i j t s : String) (hij : i ≠ j) (e : Elem) :
    frT j s (frT i t e) = frT i t (frT j s e) := by
  match e with
  | .mk a tx k =>
    by_cases hi : a = some i
    · have hj : ¬ a = some j := by
        rw [hi]; intro hc; exact hij (Option.some_injective _ hc)
      rw [frT_of_eq i t a tx k hi, frT_of_ne j s a (some t) k (by rw [hi] at hj ⊢; exact hj),
        frT_of_ne j s a tx k hj, frT_of_eq i t a tx (frL j s k) hi]
    · by_cases hj : a = some j
      · rw [frT_of_ne i t a tx k hi, frT_of_eq j s a (tx) (frL i t k) hj,
          frT_of_eq j s a tx k hj, frT_of_ne i t a (some s) k hi]
      · rw [frT_of_ne i t a tx k hi, frT_of_ne j s a tx (frL i t k) hj,
          frT_of_ne j s a tx k hj, frT_of_ne i t a tx (frL j s k) hi,
          frL_comm i j t s hij k]

/-- Replacements at two different ids commute on a forest. -/
theorem frL_comm (i j t s : String) (hij : i ≠ j) (cs : List Elem) :
    frL j s (frL i t cs) = frL i t (frL j s cs) := by
  match cs with
  | [] => rfl
  | e :: rest =>
    by_cases h1 : hasIdT i e
    · by_cases h2 : hasIdT j e
      · rw [frL_cons_pos i t e rest h1, frL_cons_pos j s (frT i t e) rest (by rw [hasIdT_frT, h2]),
          frL_cons_pos j s e rest h2, frL_cons_pos i t (frT j s e) rest (by rw [hasIdT_frT, h1]),
          frT_comm i j t s hij e]
      · have h2' : hasIdT j e = false := by simpa using h2
        rw [frL_cons_pos i t e rest h1, frL_cons_neg j s (frT i t e) rest (by rw [hasIdT_frT, h2']),
          frL_cons_neg j s e rest h2', frL_cons_pos i t e (frL j s rest) h1]
    · have h1' : hasIdT i e = false := by simpa using h1
      by_cases h2 : hasIdT j e
      · rw [frL_cons_neg i t e rest h1', frL_cons_pos j s e (frL i t rest) h2,
          frL_cons_pos j s e rest h2, frL_cons_neg i t (frT j s e) rest (by rw [hasIdT_frT, h1'])]
      · have h2' : hasIdT j e = false := by simpa using h2
        rw [frL_cons_neg i t e rest h1', frL_cons_neg j s e (frL i t rest) h2',
          frL_cons_neg j s e rest h2', frL_cons_neg i t e (frL j s rest) h1',
          frL_comm i j t s hij rest]

end

end Today

namespace Today

mutual

/-- Replacement changes at most the texts of `i`-carriers of a subtree:
the `i`-scrubbed images agree. -/
theorem scrubT_frT (i t : String) (e : Elem) : scrubT i (frT i t e) = scrubT i e := by
  match e with
  | .mk a tx k =>
    by_cases h : a = some i
    · rw [frT_of_eq i t a tx k h]
      simp [scrubT, h]
    · rw [frT_of_ne i t a tx k h]
      simp only [scrubT]
      rw [scrubL_frL i t k]

/-- Forest version of `scrubT_frT`. -/
theorem scrubL_frL (i t : String) (cs : List Elem) : scrubL i (frL i t cs) = scrubL i cs := by
  match cs with
  | [] => rfl
  | e :: rest =>
    by_cases h : hasIdT i e
    · rw [frL_cons_pos i t e rest h]
      simp only [scrubL]
      rw [scrubT_frT i t e]
    · rw [frL_cons_neg i t e rest (by simpa using h)]
      simp only [scrubL]
      rw [scrubL_frL i t rest]

end

mutual

/-- A subtree without the id has no `i`-carrier texts. -/
theorem textsOfIdT_nil_of (i : String) (e : Elem) (h : hasIdT i e = false) :
    textsOfIdT i e = [] := by
  match e with
  | .mk a tx k =>
    simp only [hasIdT, Bool.or_eq_false_iff] at h
    simp only [textsOfIdT, if_neg (by simpa using h.1)]
    simpa using textsOfIdL_nil_of i k h.2

/-- A forest without the id has no `i`-carrier texts. -/
theorem textsOfIdL_nil_of (i : String) (cs : List Elem) (h : hasIdL i cs = false) :
    textsOfIdL i cs = [] := by
  match cs with
  | [] => rfl
  | e :: rest =>
    simp only [hasIdL, Bool.or_eq_false_iff] at h
    simp only [textsOfIdL]
    rw [textsOfIdT_nil_of i e h.1, textsOfIdL_nil_of i rest h.2]
    rfl

end

mutual

/-- A subtree with the id has at least one `i`-carrier text. -/
theorem textsOfIdT_ne_nil (i : String) (e : Elem) (h : hasIdT i e = true) :
    textsOfIdT i e ≠ [] := by
  match e with
  | .mk a tx k =>
    by_cases ha : a = some i
    · simp [textsOfIdT, ha]
    · have hk : hasIdL i k = true := by
        simp only [hasIdT, Bool.or_eq_true_iff] at h
        rcases h with h | h
        · exact absurd (by simpa using h) ha
        · exact h
      simp only [textsOfIdT, if_neg ha, List.nil_append]
      exact textsOfIdL_ne_nil i k hk

/-- A forest with the id has at least one `i`-carrier text. -/
theorem textsOfIdL_ne_nil (i : String) (cs : List Elem) (h : hasIdL i cs = true) :
    textsOfIdL i cs ≠ [] := by
  match cs with
  | [] => simp [hasIdL] at h
  | e :: rest =>
    simp only [hasIdL, Bool.or_eq_true_iff] at h
    simp only [textsOfIdL]
    intro hc
    rw [List.append_eq_nil] at hc
    rcases h with h | h
    · exact textsOfIdT_ne_nil i e h hc.1
    · exact textsOfIdL_ne_nil i rest h hc.2

end

mutual

/-- Replacement in a subtree that contains the id rewrites exactly the
first `i`-carrier text (in document order) to the new value and keeps the
rest. -/
theorem textsOfIdT_frT (i t : String) (e : Elem) (h : hasIdT i e = true) :
    textsOfIdT i (frT i t e) = some t :: (textsOfIdT i e).tail := by
  match e with
  | .mk a tx k =>
    by_cases ha : a = some i
    · rw [frT_of_eq i t a tx k ha]
      simp [textsOfIdT, ha]
    · have hk : hasIdL i k = true := by
        simp only [hasIdT, Bool.or_eq_true_iff] at h
        rcases h with h | h
        · exact absurd (by simpa using h) ha
        · exact h
      rw [frT_of_ne i t a tx k ha]
      simp only [textsOfIdT, if_neg ha, List.nil_append]
      exact textsOfIdL_frL i t k hk

/-- Forest version of `textsOfIdT_frT`. -/
theorem textsOfIdL_frL (i t : String) (cs : List Elem) (h : hasIdL i cs = true) :
    textsOfIdL i (frL i t cs) = some t :: (textsOfIdL i cs).tail := by
  match cs with
  | [] => simp [hasIdL] at h
  | e :: rest =>
    by_cases h1 : hasIdT i e
    · rw [frL_cons_pos i t e rest h1]
      simp only [textsOfIdL]
      rw [textsOfIdT_frT i t e h1]
      cases htx : textsOfIdT i e with
      | nil => exact absurd htx (textsOfIdT_ne_nil i e h1)
      | cons x xs => simp
    · have h1' : hasIdT i e = false := by simpa using h1
      have hrest : hasIdL i rest = true := by
        simp only [hasIdL, Bool.or_eq_true_iff] at h
        rcases h with h | h
        · rw [h1'] at h; exact absurd h (by simp)
        · exact h
      rw [frL_cons_neg i t e rest h1']
      simp only [textsOfIdL]
      rw [textsOfIdT_nil_of i e h1', textsOfIdL_frL i t rest hrest, List.nil_append,
        List.nil_append]

end

/-- `findAndReplace` written with the totalised forest replacement. -/
theorem findAndReplace_eq_frL (a tx : Option String) (k : List Elem) (i t : String) :
    findAndReplace (.mk a tx k) i t = .mk a tx (frL i t k) := by
  simp only [findAndReplace, frL]
  cases hk : replaceL i t k <;> simp

/-- Patching the same slot twice keeps only the second text. -/
theorem findAndReplace_overwrite (r : Elem) (i t t' : String) :
    findAndReplace (findAndReplace r i t') i t = findAndReplace r i t := by
  cases r with
  | mk a tx k =>
    rw [findAndReplace_eq_frL, findAndReplace_eq_frL, findAndReplace_eq_frL,
      frL_overwrite i t t' k]

/-- Patches of two different slots commute. -/
theorem findAndReplace_comm (r : Elem) (i j t s : String) (hij : i ≠ j) :
    findAndReplace (findAndReplace r i t) j s = findAndReplace (findAndReplace r j s) i t := by
  cases r with
  | mk a tx k =>
    rw [findAndReplace_eq_frL, findAndReplace_eq_frL, findAndReplace_eq_frL,
      findAndReplace_eq_frL, frL_comm i j t s hij k]

/-- `applyAll` on a cons. -/
theorem applyAll_cons (r : Elem) (p : String × String) (ps : List (String × String)) :
    applyAll r (p :: ps) = applyAll (findAndReplace r p.1 p.2) ps := rfl

/-- A patch whose slot id occurs nowhere in `ps` can be pulled out of
`applyAll`. -/
theorem findAndReplace_applyAll (ps : List (String × String)) (i t : String)
    (h : ∀ p ∈ ps, p.1 ≠ i) (r : Elem) :
    applyAll (findAndReplace r i t) ps = findAndReplace (applyAll r ps) i t := by
  induction ps generalizing r with
  | nil => rfl
  | cons p ps ih =>
    rw [applyAll_cons, applyAll_cons,
      findAndReplace_comm r i p.1 t p.2 (Ne.symm (h p (List.mem_cons_self p ps)))]
    exact ih (fun q hq => h q (List.mem_cons_of_mem p hq)) (findAndReplace r p.1 p.2)

/-- Applying a list of patches with pairwise different slot ids twice is
the same as applying it once. -/
theorem applyAll_idem (ps : List (String × String))
    (h : ps.Pairwise (fun p q => p.1 ≠ q.1)) (r : Elem) :
    applyAll (applyAll r ps) ps = applyAll r ps := by
  induction ps generalizing r with
  | nil => rfl
  | cons p ps ih =>
    rw [List.pairwise_cons] at h
    rw [applyAll_cons, applyAll_cons,
      ← findAndReplace_applyAll ps p.1 p.2 (fun q hq => Ne.symm (h.1 q hq))
        (findAndReplace r p.1 p.2),
      findAndReplace_overwrite, ih h.2]

end Today

namespace Today

/-- C6: running `svg_overwrite` a second time, with the same metric
values, on a document it has already patched produces exactly the same
document tree — and hence, serialisation being a deterministic function
of the tree, byte-identical output. -/
theorem C6_svg_overwrite_idempotent (root : Elem) (age : String)
    (commitData starData repoData contribData followerData : Nat) :
    svgOverwrite
        (svgOverwrite root age commitData starData repoData contribData followerData)
        age commitData starData repoData contribData followerData
      = svgOverwrite root age commitData starData repoData contribData followerData := by
  unfold svgOverwrite
  refine applyAll_idem _ ?_ root
  have h : ((slotAssignments commitData starData repoData contribData followerData).map
      Prod.fst).Pairwise (fun a b : String => a ≠ b) := by
    show List.Pairwise _ (List.map _ _)
    simp only [slotAssignments, List.map_cons, List.map_nil]
    decide
  exact List.pairwise_map.mp h

/-- C7: `find_and_replace` is a silent no-op when no element of the
document carries the slot id; in every case it preserves the document's
structure and every text outside the id's carriers (the `i`-scrubbed
images agree); and when the id is present, exactly the first carrier's
text (in document order) is set to the new value while the remaining
carriers keep theirs. -/
theorem C7_find_and_replace_effect (root : Elem) (i t : String) :
    (hasIdL i root.children = false → findAndReplace root i t = root) ∧
    scrubT i (findAndReplace root i t) = scrubT i root ∧
    (hasIdL i root.children = true →
      textsOfIdL i (findAndReplace root i t).children
        = some t :: (textsOfIdL i root.children).tail) := by
  cases root with
  | mk a tx k =>
    refine ⟨?_, ?_, ?_⟩
    · intro h
      have h' : hasIdL i k = false := h
      simp only [findAndReplace, replaceL_eq_none i t k h']
    · rw [findAndReplace_eq_frL]
      simp only [scrubT]
      rw [scrubL_frL i t k]
    · intro h
      have h' : hasIdL i k = true := h
      rw [findAndReplace_eq_frL]
      show textsOfIdL i (frL i t k) = some t :: (textsOfIdL i k).tail
      exact textsOfIdL_frL i t k h'

/-- Witness for C7 on a concrete two-element document: patching the
absent slot `z` changes nothing, and patching slot `x` rewrites exactly
that carrier's text. -/
theorem C7_find_and_replace_effect_witness :
    findAndReplace
        (Elem.mk none none
          [Elem.mk (some "x") (some "old") [], Elem.mk (some "y") (some "keep") []]) "z" "t"
      = Elem.mk none none
          [Elem.mk (some "x") (some "old") [], Elem.mk (some "y") (some "keep") []] ∧
    textsOfIdL "x"
        (findAndReplace
          (Elem.mk none none
            [Elem.mk (some "x") (some "old") [], Elem.mk (some "y") (some "keep") []])
          "x" "new").children
      = some "new" ::
        (textsOfIdL "x"
          (Elem.mk none none
            [Elem.mk (some "x") (some "old") [], Elem.mk (some "y") (some "keep") []]).children).tail :=
  ⟨(C7_find_and_replace_effect
      (Elem.mk none none
        [Elem.mk (some "x") (some "old") [], Elem.mk (some "y") (some "keep") []]) "z" "t").1
      (by decide),
   (C7_find_and_replace_effect
      (Elem.mk none none
        [Elem.mk (some "x") (some "old") [], Elem.mk (some "y") (some "keep") []]) "x" "new").2.2
      (by decide)⟩

/-- C8: `simple_request` raises a `RequestError` carrying the transport
status and the caller's identity exactly when the status is not the
success status 200; on a 200 it returns the response unchanged; and in
the main flow any fetch failure short-circuits the run as an error before
either document is patched, while an all-success run patches both
documents. -/
theorem C8_request_gate (f : String) (resp : Response) (tr : Transport)
    (parse : Response → Nat) (age : String) (d1 d2 : Elem) :
    ((∃ e : RequestError,
        simpleRequest f resp = .error e ∧ e.funcName = f ∧ e.status = resp.status)
      ↔ resp.status ≠ 200) ∧
    (resp.status = 200 → simpleRequest f resp = .ok resp) ∧
    ((tr.userResp.status ≠ 200 ∨ tr.commitsResp.status ≠ 200 ∨ tr.starsResp.status ≠ 200 ∨
      tr.reposResp.status ≠ 200 ∨ tr.contribResp.status ≠ 200 ∨
      tr.followerResp.status ≠ 200) →
      ∃ e : RequestError, mainRun tr parse age d1 d2 = .error e) ∧
    (tr.userResp.status = 200 → tr.commitsResp.status = 200 → tr.starsResp.status = 200 →
      tr.reposResp.status = 200 → tr.contribResp.status = 200 →
      tr.followerResp.status = 200 →
      mainRun tr parse age d1 d2
        = .ok (svgOverwrite d1 age (parse tr.commitsResp) (parse tr.starsResp)
                 (parse tr.reposResp) (parse tr.contribResp) (parse tr.followerResp),
               svgOverwrite d2 age (parse tr.commitsResp) (parse tr.starsResp)
                 (parse tr.reposResp) (parse tr.contribResp) (parse tr.followerResp))) := by
  refine ⟨?_, ?_, ?_, ?_⟩
  · constructor
    · rintro ⟨e, he, -, hs⟩ h200
      rw [simpleRequest, if_pos h200] at he
      exact Except.noConfusion he
    · intro h200
      exact ⟨⟨f, resp.status, resp.text⟩, by rw [simpleRequest, if_neg h200], rfl, rfl⟩
  · intro h200
    rw [simpleRequest, if_pos h200]
  · intro hfail
    by_cases h1 : tr.userResp.status = 200
    · by_cases h2 : tr.commitsResp.status = 200
      · by_cases h3 : tr.starsResp.status = 200
        · by_cases h4 : tr.reposResp.status = 200
          · by_cases h5 : tr.contribResp.status = 200
            · by_cases h6 : tr.followerResp.status = 200
              · rcases hfail with h | h | h | h | h | h <;> contradiction
              · exact ⟨⟨"follower_getter", tr.followerResp.status, tr.followerResp.text⟩,
                  by simp [mainRun, simpleRequest, h1, h2, h3, h4, h5, h6]; rfl⟩
            · exact ⟨⟨"graph_repos_stars", tr.contribResp.status, tr.contribResp.text⟩,
                by simp [mainRun, simpleRequest, h1, h2, h3, h4, h5]; rfl⟩
          · exact ⟨⟨"graph_repos_stars", tr.reposResp.status, tr.reposResp.text⟩,
              by simp [mainRun, simpleRequest, h1, h2, h3, h4]; rfl⟩
        · exact ⟨⟨"graph_repos_stars", tr.starsResp.status, tr.starsResp.text⟩,
            by simp [mainRun, simpleRequest, h1, h2, h3]; rfl⟩
      · exact ⟨⟨"graph_commits", tr.commitsResp.status, tr.commitsResp.text⟩,
          by simp [mainRun, simpleRequest, h1, h2]; rfl⟩
    · exact ⟨⟨"user_getter", tr.userResp.status, tr.userResp.text⟩,
        by simp [mainRun, simpleRequest, h1]; rfl⟩
  · intro h1 h2 h3 h4 h5 h6
    simp [mainRun, simpleRequest, h1, h2, h3, h4, h5, h6]; rfl

/-- Witness for C8: a concrete run whose commit fetch returns status 500
short-circuits to an error, and a concrete 200 response passes the gate
unchanged. -/
theorem C8_request_gate_witness :
    (∃ e : RequestError,
      mainRun ⟨⟨200, "a"⟩, ⟨500, "boom"⟩, ⟨200, "c"⟩, ⟨200, "d"⟩, ⟨200, "e"⟩, ⟨200, "f"⟩⟩
        (fun _ => 0) "" (Elem.mk none none []) (Elem.mk none none []) = .error e) ∧
    simpleRequest "user_getter" ⟨200, "ok"⟩ = .ok ⟨200, "ok"⟩ :=
  ⟨(C8_request_gate "user_getter" ⟨200, "ok"⟩
      ⟨⟨200, "a"⟩, ⟨500, "boom"⟩, ⟨200, "c"⟩, ⟨200, "d"⟩, ⟨200, "e"⟩, ⟨200, "f"⟩⟩
      (fun _ => 0) "" (Elem.mk none none []) (Elem.mk none none [])).2.2.1
      (Or.inr (Or.inl (by decide))),
   (C8_request_gate "user_getter" ⟨200, "ok"⟩
      ⟨⟨200, "a"⟩, ⟨500, "boom"⟩, ⟨200, "c"⟩, ⟨200, "d"⟩, ⟨200, "e"⟩, ⟨200, "f"⟩⟩
      (fun _ => 0) "" (Elem.mk none none []) (Elem.mk none none [])).2.1 rfl⟩

end Today
